import Mathlib

/-!
Shallow embedding of the job submission / polling / aggregation subsystem of
the simons_workflow_helpers repository, covering:

* jobcontroller_ffastrans_api.py : submit_encoding_job, wait_for_job_completion
* launch_job.py : launch_jobs, poll_job_completion, monitor_jobs, main
* jobcontroller.py : process_file and the bounded process pool of main

HTTP effects are modelled by passing the sequence of responses the remote
engine would return as an explicit function argument; `time.sleep` calls are
recorded as data where a claim depends on them and dropped otherwise.
Timestamps (launch/completion times and durations) are omitted: they feed
only log output and never influence any status, result set or exit code.
-/

/-- One entry of a `variables` list in the engine JSON
(a dict that may lack the `name` or `data` key). -/
structure Variable where
  name : Option String
  data : Option String
deriving DecidableEq

/-- The `properties` dict of a workflow node; `properties.get('variables', [])`
collapses a missing key to the empty list. -/
structure NodeProperties where
  «variables» : List Variable
deriving DecidableEq

/-- One node of `wf_object.nodes` in a getjobdetails response. -/
structure WfNode where
  properties : NodeProperties
deriving DecidableEq

/-- Parsed body of a getjobdetails response:
`status` is `job_details.get('status')` and `nodes` is
`job_details.get('wf_object', {}).get('nodes', [])`. -/
structure JobDetails where
  status : Option String
  nodes : List WfNode
deriving DecidableEq

/-- Outcome of one `requests.get` in wait_for_job_completion:
either a response with a status code and parsed JSON body, or a raised
exception (`requests.exceptions.Timeout` or any other exception, which the
source handles identically). -/
inductive HttpPollResult
  | ok (status_code : Nat) (body : JobDetails)
  | exn
deriving DecidableEq

/-- The configuration keys wait_for_job_completion reads:
`http_poll_interval` (default 1) and `http_max_retries` (default 10). -/
structure WaitConfig where
  http_poll_interval : Nat
  http_max_retries : Nat
deriving DecidableEq

/-- Result of wait_for_job_completion, one constructor per return site of the
source. The Python function collapses these to `Optional[str]`
(see `wait_return_value`); the constructors keep the return sites apart so
that the diagnostic logged at each site can be talked about.
`stillPolling` is the fuel-exhaustion marker of the embedding: the source
loop has not returned within the given number of iterations. -/
inductive WaitResult
  | extracted (v : Option String)
  | varNotFound
  | jobFailed (s : String)
  | maxFailuresExceeded
  | stillPolling
deriving DecidableEq

/-- Inner loop of the variable extraction in wait_for_job_completion:
`for var in variables: if var.get('name') == variable_to_extract: return var.get('data')`. -/
def find_var : List Variable → String → Option (Option String)
  | [], _ => none
  | v :: rest, target =>
      if v.name == some target then some v.data else find_var rest target

/-- Variable extraction of wait_for_job_completion on a finished job:
`for node in nodes: for var in node properties variables: ...`, returning the
first variable whose name matches, `none` when no node holds one. -/
def extract_variable : List WfNode → String → Option (Option String)
  | [], _ => none
  | nd :: rest, target =>
      match find_var nd.properties.«variables» target with
      | some d => some d
      | none => extract_variable rest target

/-- The `while True` loop of wait_for_job_completion.
Arguments after the response stream: remaining fuel, index of the next HTTP
call, current `consecutive_failures`. The source computes
`elapsed = time.time() - start_time` each iteration but uses it only inside
log messages, so it does not appear in the state. -/
def wait_loop (cfg : WaitConfig) (variable_to_extract : String)
    (resp : Nat → HttpPollResult) : Nat → Nat → Nat → WaitResult
  | 0, _, _ => .stillPolling
  | fuel + 1, k, consecutive_failures =>
    match resp k with
    | .exn =>
        if cfg.http_max_retries ≤ consecutive_failures + 1 then
          .maxFailuresExceeded
        else
          wait_loop cfg variable_to_extract resp fuel (k + 1) (consecutive_failures + 1)
    | .ok code body =>
        if code ≠ 200 then
          if cfg.http_max_retries ≤ consecutive_failures + 1 then
            .maxFailuresExceeded
          else
            wait_loop cfg variable_to_extract resp fuel (k + 1) (consecutive_failures + 1)
        else
          if body.status == some "finished" then
            match extract_variable body.nodes variable_to_extract with
            | some v => .extracted v
            | none => .varNotFound
          else if body.status == some "error" || body.status == some "failed" then
            .jobFailed (body.status.getD "")
          else
            wait_loop cfg variable_to_extract resp fuel (k + 1) 0

/-- wait_for_job_completion, started with `consecutive_failures = 0` at the
first HTTP call, allowed `fuel` loop iterations. -/
def wait_for_job_completion (cfg : WaitConfig) (variable_to_extract : String)
    (resp : Nat → HttpPollResult) (fuel : Nat) : WaitResult :=
  wait_loop cfg variable_to_extract resp fuel 0 0

/-- The value the Python function actually returns for each outcome:
the extracted data on the success path, `None` on every failure path. -/
def wait_return_value : WaitResult → Option String
  | .extracted v => v
  | _ => none

/-- The defaults of the CONFIG dict in jobcontroller.py:
`http_poll_interval = 1`, `http_max_retries = 10`. -/
def cfg_default : WaitConfig := { http_poll_interval := 1, http_max_retries := 10 }

/-- An engine that answers every poll with HTTP 200 and status `running`. -/
def running_forever : Nat → HttpPollResult :=
  fun _ => .ok 200 { status := some "running", nodes := [] }

/-- Outcome of the `requests.post` in submit_encoding_job:
a parsed response whose `job_id` key may be absent, or a non-200 response,
which the source turns into a raised RuntimeError carrying the body text. -/
inductive SubmitOutcome
  | ok (job_id : Option String)
  | httpError (text : String)
deriving DecidableEq

/-- The per-item result dict built by process_file in jobcontroller.py
(`encoded_count` and the file name are dropped; they do not affect any
 claim). -/
structure ProcResult where
  status : String
  error : Option String
deriving DecidableEq

/-- process_file in jobcontroller.py, reduced to the control flow that decides
the item outcome: a RuntimeError raised by submit_encoding_job is caught at
the item boundary and becomes an error outcome; on a successful POST the
function calls wait_for_job_completion, binds its return to a variable that
is never read again, and returns a success outcome whatever that return was.
File-system side effects (report writes, moving encoded files) are assumed
to succeed. -/
def process_file (sub : SubmitOutcome) (_output_value : WaitResult) : ProcResult :=
  match sub with
  | .httpError t => { status := "error", error := some ("Failed to submit job: " ++ t) }
  | .ok _ => { status := "success", error := none }

/-- Whether process_file reaches the call to wait_for_job_completion: it does
whenever the POST returned 200, even when the parsed body held no job id
(`job_id` is then `None` and is interpolated into the polling URL). -/
def process_file_polls (sub : SubmitOutcome) : Bool :=
  match sub with
  | .httpError _ => false
  | .ok _ => true

/-- One entry of the `history` list returned by `GET /jobs?jobid=` in
launch_job.py (keys may be absent). -/
structure HistEntry where
  job_id : Option String
  state : Option Int
  result : Option String
  end_time : Option String
deriving DecidableEq

/-- Outcome of one `session.get` in poll_job_completion: a 2xx response whose
parsed body yields `result.get('history', [])`, or any of the caught failures
(RequestException from raise_for_status or transport, JSONDecodeError, other
exceptions), which the source handles identically. -/
inductive PollHttp
  | ok (history : List HistEntry)
  | err
deriving DecidableEq

/-- The history scan of poll_job_completion: return the first entry whose
`job_id` equals the polled id and whose `state` key is present; an entry
matching the id with `state` `None` is skipped and the scan continues. -/
def find_hist : List HistEntry → String → Option HistEntry
  | [], _ => none
  | e :: rest, jid =>
      if e.job_id == some jid && e.state.isSome then some e
      else find_hist rest jid

/-- The retry loop of poll_job_completion. Remaining fuel is
`max_retries - retry_count`; the second component collects the argument of
every `time.sleep` executed (the source sleeps 60 seconds in every branch
that does not return, whatever the caller's poll_frequency was). -/
def poll_go (resp : Nat → PollHttp) (jid : String) :
    Nat → Nat → Option HistEntry × List Nat
  | 0, _ => (none, [])
  | fuel + 1, k =>
    match resp k with
    | .ok history =>
        match find_hist history jid with
        | some e => (some e, [])
        | none =>
            let r := poll_go resp jid fuel (k + 1)
            (r.1, 60 :: r.2)
    | .err =>
        let r := poll_go resp jid fuel (k + 1)
        (r.1, 60 :: r.2)

/-- poll_job_completion together with its sleep trace:
`max_retries = poll_timeout // 60` attempts, each missed attempt followed by
`time.sleep(60)`. -/
def poll_job_completion_t (resp : Nat → PollHttp) (jid : String)
    (poll_timeout : Nat) : Option HistEntry × List Nat :=
  poll_go resp jid (poll_timeout / 60) 0

/-- poll_job_completion as the caller sees it: the found history entry, or
`None` after the timeout budget is spent. -/
def poll_job_completion (resp : Nat → PollHttp) (jid : String)
    (poll_timeout : Nat) : Option HistEntry :=
  (poll_job_completion_t resp jid poll_timeout).1

/-- One value of the `results` dict built by monitor_jobs
(launch and completion timestamps are dropped: they only feed the duration
printed by write_summary). -/
structure MonitorEntry where
  input_file : String
  state : Option Int
  result : String
  status : String
deriving DecidableEq

/-- Assignment into a Python dict modelled on an association list: an
existing key is overwritten in place, a new key is appended. -/
def dict_insert {α : Type} (d : List (String × α)) (k : String) (v : α) :
    List (String × α) :=
  if d.any (fun p => p.1 == k) then
    d.map (fun p => if p.1 == k then (k, v) else p)
  else
    d ++ [(k, v)]

/-- Key membership test of the association-list dict. -/
def dict_mem {α : Type} (d : List (String × α)) (k : String) : Bool :=
  d.any (fun p => p.1 == k)

/-- The per-job body of the monitor_jobs loop: poll with the hard-coded
`poll_timeout=1800`, then build the result entry
(`status` is `success` exactly when `state == 1`; a missed poll yields the
`Timeout or error` entry). -/
def job_result_entry (respOf : String → Nat → PollHttp) (jid input_file : String) :
    MonitorEntry :=
  match poll_job_completion (respOf jid) jid 1800 with
  | some e =>
      { input_file := input_file
        state := e.state
        result := e.result.getD "Unknown"
        status := if e.state == some 1 then "success" else "failed" }
  | none =>
      { input_file := input_file
        state := none
        result := "Timeout or error"
        status := "failed" }

/-- The fold of monitor_jobs over the launched list, building the results
dict. -/
def monitor_go (respOf : String → Nat → PollHttp) :
    List (String × String) → List (String × MonitorEntry) → List (String × MonitorEntry)
  | [], results => results
  | (jid, input_file) :: rest, results =>
      monitor_go respOf rest (dict_insert results jid (job_result_entry respOf jid input_file))

/-- monitor_jobs of launch_job.py. The `poll_frequency` parameter is part of
the source signature (and is passed from the CLI by main) but is never read
inside the function body. -/
def monitor_jobs (respOf : String → Nat → PollHttp) (poll_frequency : Nat)
    (launched_jobs : List (String × String)) : List (String × MonitorEntry) :=
  monitor_go respOf launched_jobs []

/-- Outcome of one submission POST in launch_jobs: a 2xx response with parsed
JSON whose `job_id` key may be absent, or any caught failure
(RequestException, JSONDecodeError, other), all of which just log and move to
the next item. -/
inductive SubmitResult
  | ok (job_id : Option String)
  | err
deriving DecidableEq

/-- The submission loop of launch_jobs, from item index `idx` on: an item is
appended to the launched list only when its response carried a job id. -/
def launch_go (subResp : Nat → SubmitResult) : Nat → List String → List (String × String)
  | _, [] => []
  | idx, input_file :: rest =>
      match subResp idx with
      | .ok (some jid) => (jid, input_file) :: launch_go subResp (idx + 1) rest
      | _ => launch_go subResp (idx + 1) rest

/-- launch_jobs of launch_job.py, returning the (job_id, input_file) pairs of
the successfully launched items (launch timestamps dropped). -/
def launch_jobs (subResp : Nat → SubmitResult) (input_files : List String) :
    List (String × String) :=
  launch_go subResp 0 input_files

/-- The exit-code logic of launch_job.py main: 1 when the input list is
empty, 1 when no job launched, otherwise 0 exactly when every monitored
result has status `success`. -/
def launch_job_main (subResp : Nat → SubmitResult)
    (respOf : String → Nat → PollHttp) (poll_frequency : Nat)
    (input_files : List String) : Nat :=
  if input_files.isEmpty then 1
  else
    let launched := launch_jobs subResp input_files
    if launched.isEmpty then 1
    else if (monitor_jobs respOf poll_frequency launched).all
        (fun p => p.2.status == "success") then 0
    else 1

/-- One running-job entry of the `tickets.running` list returned by
`GET /tickets`. -/
structure RunningJob where
  job_id : Option String
  «variables» : List Variable
deriving DecidableEq

/-- fetch_variables_from_job of launch_job.py: `none` models every path that
returns `None` (HTTP or JSON failure — the first argument is then `none` —
or no running job with the given id); the variables of the first matching
running job otherwise. -/
def fetch_variables_from_job (tickets : Option (List RunningJob)) (job_id : String) :
    Option (List Variable) :=
  match tickets with
  | none => none
  | some running_jobs =>
      (running_jobs.find? (fun j => j.job_id == some job_id)).map
        (fun j => j.«variables»)

/-- A caller-supplied name/data pair as appended by prepare_variables. -/
def caller_variable (p : String × String) : Variable :=
  { name := some p.1, data := some p.2 }

/-- prepare_variables of launch_job.py: when a reference job id is given and
its fetched variable list is truthy (Python `if fetched_vars:` — a non-empty
list), it is extended into the result first; the caller-supplied pairs are
appended afterwards in order, with no deduplication anywhere. -/
def prepare_variables (variables_list : List (String × String))
    (variables_from_job_id : Option String)
    (tickets : Option (List RunningJob)) : List Variable :=
  let prepared :=
    match variables_from_job_id with
    | none => []
    | some jid =>
        match fetch_variables_from_job tickets jid with
        | some fetched => if fetched.isEmpty then [] else fetched
        | none => []
  prepared ++ variables_list.map caller_variable

/-- Lifecycle phase of one input item of jobcontroller.py main: `pending`
(its process_file task is queued in the ProcessPoolExecutor), `running b`
(a pool worker is executing process_file for it; `b` is true between the
submit_encoding_job POST and the return of wait_for_job_completion, i.e.
while the item is in flight at the engine), `done` (the future completed and
its outcome was collected). -/
inductive Phase
  | pending
  | running (in_flight : Bool)
  | done
deriving DecidableEq

/-- Is a pool worker currently executing this item's task? -/
def phase_running : Phase → Bool
  | .running _ => true
  | _ => false

/-- Is this item submitted to the engine with no terminal poll result yet? -/
def phase_in_flight : Phase → Bool
  | .running true => true
  | _ => false

/-- Number of items whose task currently occupies a pool worker. -/
def running_count (s : List Phase) : Nat := s.countP phase_running

/-- Number of items currently in flight at the engine. -/
def in_flight_count (s : List Phase) : Nat := s.countP phase_in_flight

/-- Small-step semantics of `ProcessPoolExecutor(max_workers = M)` running
one process_file task per item: a queued task may start only while fewer
than `M` tasks are running; within its task an item is first submitted to
the engine (the POST of submit_encoding_job), later reaches a terminal poll
result (wait_for_job_completion returns), and the task then finishes.
Steps of distinct items interleave arbitrarily. -/
inductive PoolStep (M : Nat) : List Phase → List Phase → Prop
  | start (s : List Phase) (i : Nat) (h : s.get? i = some .pending)
      (hM : running_count s < M) :
      PoolStep M s (s.set i (.running false))
  | submit (s : List Phase) (i : Nat) (h : s.get? i = some (.running false)) :
      PoolStep M s (s.set i (.running true))
  | resolve (s : List Phase) (i : Nat) (h : s.get? i = some (.running true)) :
      PoolStep M s (s.set i (.running false))
  | finish (s : List Phase) (i : Nat) (h : s.get? i = some (.running false)) :
      PoolStep M s (s.set i .done)

/-- States reachable by the pool from `n` queued items. -/
def pool_reachable (M n : Nat) (s : List Phase) : Prop :=
  Relation.ReflTransGen (PoolStep M) (List.replicate n .pending) s

/-- A two-item run in which the first item's submission POST returns 200 with
a body lacking `job_id` and the second item's returns job id `j1`. -/
def sub2 : Nat → SubmitResult
  | 0 => .ok none
  | _ => .ok (some "j1")

/-- The input list of the two-item example run. -/
def files2 : List String := ["a.mov", "b.mov"]

/-- History answered for job `j1`: present with state 1 (success). -/
def hist2 : List HistEntry :=
  [{ job_id := some "j1", state := some 1, result := some "/out/a.mxf", end_time := none }]

/-- A poll server that always answers the `hist2` history. -/
def resp2 : String → Nat → PollHttp := fun _ _ => .ok hist2

/-- A submitter whose every response is 200 with no `job_id` key. -/
def sub5 : Nat → SubmitResult := fun _ => .ok none

/-- An engine whose getjobdetails always answers HTTP 200, status `finished`,
with a result graph that has no variable named `s_output`. -/
def resp4 : Nat → HttpPollResult :=
  fun _ => .ok 200
    { status := some "finished"
      nodes := [{ properties := { «variables» := [{ name := some "s_other", data := some "x" }] } }] }

/-- A small poller configuration allowing a single consecutive HTTP failure. -/
def cfg6 : WaitConfig := { http_poll_interval := 1, http_max_retries := 1 }

/-- An engine whose getjobdetails always answers HTTP 201 (a 2xx success),
status `finished`, with the awaited variable present. -/
def resp6 : Nat → HttpPollResult :=
  fun _ => .ok 201
    { status := some "finished"
      nodes := [{ properties := { «variables» := [{ name := some "s_output", data := some "/out/a.mxf" }] } }] }

/-- A running-status getjobdetails body. -/
def run_d : JobDetails := { status := some "running", nodes := [] }

/-- A finished getjobdetails body holding `s_output = /out/a.mxf`. -/
def fd_ok : JobDetails :=
  { status := some "finished"
    nodes := [{ properties := { «variables» := [{ name := some "s_output", data := some "/out/a.mxf" }] } }] }

/-- The status sequence running, running, finished with a valid output
variable. -/
def resp7 : Nat → HttpPollResult
  | 0 => .ok 200 run_d
  | 1 => .ok 200 run_d
  | _ => .ok 200 fd_ok

/-- The running bodies of the resp7 stream. -/
def ds7 : Nat → JobDetails := fun _ => run_d

/-- A poll server that always fails at the HTTP level. -/
def err_resp : Nat → PollHttp := fun _ => .err

/-- A fetched variable of the reference job of the enrichment example. -/
def var8 : Variable := { name := some "s_project", data := some "ffastrans" }

/-- A tickets response whose running list holds the reference job `J` with
one variable. -/
def tickets8 : Option (List RunningJob) :=
  some [{ job_id := some "J", «variables» := [var8] }]

/-- The inner per-node scan is the first match over the node's variable
list. -/
lemma find_var_eq_find (vars : List Variable) (t : String) :
    find_var vars t = (vars.find? (fun v => v.name == some t)).map (fun v => v.data) := by
  induction vars with
  | nil => rfl
  | cons v rest ih =>
      by_cases h : v.name == some t <;>
        simp [find_var, List.find?_cons, h, ih]

/-- Variable extraction is the first match over the node-order concatenation
of all variable lists: traverse nodes, then each node's properties, then its
variable list, and return the first variable whose name matches. -/
lemma extract_variable_eq_find (nodes : List WfNode) (t : String) :
    extract_variable nodes t =
      ((nodes.flatMap fun nd => nd.properties.«variables»).find?
          (fun v => v.name == some t)).map (fun v => v.data) := by
  induction nodes with
  | nil => rfl
  | cons nd rest ih =>
      rw [List.flatMap_cons, List.find?_append]
      cases h2 : List.find? (fun v => v.name == some t) nd.properties.«variables» with
      | some w => simp [extract_variable, find_var_eq_find, h2]
      | none => simp [extract_variable, find_var_eq_find, h2, ih]

/-- While the engine keeps answering HTTP 200 with status `running` for `n`
polls and then answers HTTP 200 with a finished body holding the awaited
variable, the poll loop reaches the extraction return site, from any
consecutive-failure count. -/
lemma wait_loop_reaches (cfg : WaitConfig) (t : String) (resp : Nat → HttpPollResult) :
    ∀ (n : Nat) (ds : Nat → JobDetails) (k fuel f : Nat) (fd : JobDetails) (v : Option String),
      (∀ i, i < n → resp (k + i) = .ok 200 (ds i)) →
      (∀ i, i < n → (ds i).status = some "running") →
      resp (k + n) = .ok 200 fd →
      fd.status = some "finished" →
      extract_variable fd.nodes t = some v →
      n < fuel →
      wait_loop cfg t resp fuel k f = .extracted v := by
  intro n
  induction n with
  | zero =>
      intro ds k fuel f fd v _ _ h3 h4 h5 h6
      obtain ⟨fuel, rfl⟩ : ∃ m, fuel = m + 1 := ⟨fuel - 1, by omega⟩
      simp only [Nat.add_zero] at h3
      simp [wait_loop, h3, h4, h5]
  | succ m ih =>
      intro ds k fuel f fd v h1 h2 h3 h4 h5 h6
      obtain ⟨fuel, rfl⟩ : ∃ fl, fuel = fl + 1 := ⟨fuel - 1, by omega⟩
      have hk : resp k = .ok 200 (ds 0) := by
        have := h1 0 (Nat.succ_pos m); simpa using this
      have hst : (ds 0).status = some "running" := h2 0 (Nat.succ_pos m)
      have step : wait_loop cfg t resp (fuel + 1) k f = wait_loop cfg t resp fuel (k + 1) 0 := by
        simp [wait_loop, hk, hst]
      rw [step]
      refine ih (fun i => ds (i + 1)) (k + 1) fuel 0 fd v ?_ ?_ ?_ h4 h5 (by omega)
      · intro i hi
        have e : k + 1 + i = k + (i + 1) := by omega
        rw [e]
        exact h1 (i + 1) (by omega)
      · intro i hi
        exact h2 (i + 1) (by omega)
      · have e : k + 1 + m = k + (m + 1) := by omega
        rw [e]
        exact h3

/-- Updating one position of a list shifts `countP` by the predicate values
of the old and new element. -/
lemma countP_set_aux {α : Type} (p : α → Bool) :
    ∀ (l : List α) (i : Nat) (x y : α), l.get? i = some x →
      (l.set i y).countP p + (if p x then 1 else 0) =
        l.countP p + (if p y then 1 else 0) := by
  intro l
  induction l with
  | nil => intro i x y h; simp at h
  | cons a l ih =>
      intro i x y h
      cases i with
      | zero =>
          simp only [List.get?] at h
          cases h
          simp [List.set, List.countP_cons]
          omega
      | succ i =>
          simp only [List.get?] at h
          simp only [List.set, List.countP_cons]
          have := ih i x y h
          omega

/-- A single pool step keeps the number of occupied workers at or below the
executor bound. -/
lemma pool_step_running_le {M : Nat} {s s2 : List Phase}
    (h : PoolStep M s s2) (hs : running_count s ≤ M) : running_count s2 ≤ M := by
  cases h with
  | start i hi hM =>
      have e := countP_set_aux phase_running s i _ (Phase.running false) hi
      simp [phase_running] at e
      unfold running_count at hs hM ⊢
      omega
  | submit i hi =>
      have e := countP_set_aux phase_running s i _ (Phase.running true) hi
      simp [phase_running] at e
      unfold running_count at hs ⊢
      omega
  | resolve i hi =>
      have e := countP_set_aux phase_running s i _ (Phase.running false) hi
      simp [phase_running] at e
      unfold running_count at hs ⊢
      omega
  | finish i hi =>
      have e := countP_set_aux phase_running s i _ Phase.done hi
      simp [phase_running] at e
      unfold running_count at hs ⊢
      omega

/-- No worker is occupied in the initial all-queued state. -/
lemma running_count_replicate (n : Nat) :
    running_count (List.replicate n Phase.pending) = 0 := by
  induction n with
  | zero => rfl
  | succ m ih =>
      simp [running_count, List.replicate_succ, List.countP_cons, phase_running]

/-- Along every pool execution the number of occupied workers stays within
the executor bound. -/
lemma pool_running_le (M n : Nat) :
    ∀ s : List Phase, pool_reachable M n s → running_count s ≤ M := by
  intro s h
  induction h with
  | refl => simp [running_count_replicate]
  | tail _ hstep ih => exact pool_step_running_le hstep ih

/-- An item in flight at the engine occupies a pool worker. -/
lemma in_flight_imp_running (a : Phase) :
    phase_in_flight a = true → phase_running a = true := by
  cases a with
  | pending => simp [phase_in_flight]
  | done => simp [phase_in_flight]
  | running b => cases b <;> simp [phase_in_flight, phase_running]

/-- Inserting a fresh key appends it. -/
lemma dict_insert_fresh {α : Type} (d : List (String × α)) (k : String) (v : α)
    (h : dict_mem d k = false) : dict_insert d k v = d ++ [(k, v)] := by
  have h2 : ¬ (d.any (fun p => p.1 == k) = true) := by
    simp [dict_mem] at h
    simp
    intro x hx
    exact h k x hx rfl
  simp [dict_insert, h2]

/-- Folding monitor_go over launched jobs with pairwise-distinct ids, all
fresh for the accumulator, adds exactly one result entry per launched job. -/
lemma monitor_go_length (respOf : String → Nat → PollHttp) :
    ∀ (launched : List (String × String)) (acc : List (String × MonitorEntry)),
      (launched.map Prod.fst).Nodup →
      (∀ jid ∈ launched.map Prod.fst, dict_mem acc jid = false) →
      (monitor_go respOf launched acc).length = acc.length + launched.length := by
  intro launched
  induction launched with
  | nil => intro acc _ _; simp [monitor_go]
  | cons hd rest ih =>
      intro acc hnd hfresh
      obtain ⟨jid, input_file⟩ := hd
      have hfr : dict_mem acc jid = false := hfresh jid (by simp)
      have hnd2 : (rest.map Prod.fst).Nodup := (List.nodup_cons.mp (by simpa using hnd)).2
      have hnotin : jid ∉ rest.map Prod.fst := (List.nodup_cons.mp (by simpa using hnd)).1
      rw [monitor_go, dict_insert_fresh _ _ _ hfr]
      rw [ih _ hnd2 ?_]
      · simp
        omega
      · intro j hj
        have hja : dict_mem acc j = false := hfresh j (by simp [hj])
        have hne : (jid == j) = false :=
          beq_eq_false_iff_ne.mpr (fun e => hnotin (by rw [e]; exact hj))
        unfold dict_mem at hja ⊢
        rw [List.any_append, hja]
        simp [hne]

/-- launch_jobs never launches more jobs than there are input items. -/
lemma launch_go_length_le (subResp : Nat → SubmitResult) :
    ∀ (idx : Nat) (input_files : List String),
      (launch_go subResp idx input_files).length ≤ input_files.length := by
  intro idx input_files
  induction input_files generalizing idx with
  | nil => simp [launch_go]
  | cons f rest ih =>
      cases h : subResp idx with
      | ok jid =>
          cases jid with
          | some j => simp [launch_go, h]; exact ih (idx + 1)
          | none => simp [launch_go, h]; exact Nat.le_succ_of_le (ih (idx + 1))
      | err => simp [launch_go, h]; exact Nat.le_succ_of_le (ih (idx + 1))

/-- The submission loop keeps exactly the items whose POST yielded a job id,
paired with that id, in input order. -/
lemma launch_go_filterMap (subResp : Nat → SubmitResult) :
    ∀ (idx : Nat) (input_files : List String),
      launch_go subResp idx input_files =
        (List.enumFrom idx input_files).filterMap (fun p =>
          match subResp p.1 with
          | SubmitResult.ok (some jid) => some (jid, p.2)
          | _ => none) := by
  intro idx input_files
  induction input_files generalizing idx with
  | nil => simp [launch_go]
  | cons f rest ih =>
      cases h : subResp idx with
      | ok jid =>
          cases jid with
          | some j => simp [launch_go, h, List.filterMap_cons, ih (idx + 1)]
          | none => simp [launch_go, h, List.filterMap_cons, ih (idx + 1)]
      | err => simp [launch_go, h, List.filterMap_cons, ih (idx + 1)]

/-- Every sleep executed by the coarse poll loop lasts 60 seconds. -/
lemma poll_go_sleeps (resp : Nat → PollHttp) (jid : String) :
    ∀ (fuel k : Nat) (s : Nat), s ∈ (poll_go resp jid fuel k).2 → s = 60 := by
  intro fuel
  induction fuel with
  | zero => intro k s hs; simp [poll_go] at hs
  | succ n ih =>
      intro k s hs
      cases h : resp k with
      | ok history =>
          cases h2 : find_hist history jid with
          | some e => simp [poll_go, h, h2] at hs
          | none =>
              simp [poll_go, h, h2] at hs
              rcases hs with rfl | hs
              · rfl
              · exact ih (k + 1) s hs
      | err =>
          simp [poll_go, h] at hs
          rcases hs with rfl | hs
          · rfl
          · exact ih (k + 1) s hs

/-- C3. Against an engine that forever answers HTTP 200 with the non-terminal
status `running`, wait_for_job_completion never leaves the polling loop, at
any iteration budget, from any poll index and any consecutive-failure count:
the source computes `elapsed` only for log messages and has no total-timeout
check, so no `timed_out` (or any other) terminal transition ever happens.
This refutes the claim that the poll loop terminates once elapsed wall-clock
time exceeds a configured total timeout; the claim does hold of the coarse
poller poll_job_completion, whose budget is `poll_timeout // 60` attempts. -/
theorem C3_no_total_timeout :
    ∀ (fuel k f : Nat),
      wait_loop cfg_default "s_output" running_forever fuel k f = WaitResult.stillPolling := by
  intro fuel
  induction fuel with
  | zero => intro k f; rfl
  | succ n ih =>
      intro k f
      have step : wait_loop cfg_default "s_output" running_forever (n + 1) k f =
          wait_loop cfg_default "s_output" running_forever n (k + 1) 0 := by
        simp [wait_loop, running_forever]
      rw [step]
      exact ih (k + 1) 0

/-- C4. A job that reaches the engine's terminal `finished` status with no
variable named `s_output` in its result graph makes wait_for_job_completion
return its variable-not-found failure (`None` in Python), yet process_file
binds that return to an unused variable and still reports the item outcome
`success`: the missing output variable is a silent success at the item
level. -/
theorem C4_missing_variable_silent_success :
    wait_for_job_completion cfg_default "s_output" resp4 5 = WaitResult.varNotFound
    ∧ wait_return_value (wait_for_job_completion cfg_default "s_output" resp4 5) = none
    ∧ process_file (SubmitOutcome.ok (some "jobX"))
        (wait_for_job_completion cfg_default "s_output" resp4 5) =
        { status := "success", error := none } := by
  refine ⟨rfl, rfl, rfl⟩

/-- C6 (counterexample to the claim as stated). With the consecutive-failure
budget at 1, a single poll answered HTTP 201 — a successful 2xx response,
carrying a finished body with the awaited variable — is counted as a failed
call (`status_code != 200`), so the poller gives up with the
max-consecutive-failures diagnostic instead of resetting the counter and
extracting the variable: a successful-but-not-200 HTTP call does not reset
the counter. -/
theorem C6_counterexample_2xx_not_reset :
    wait_loop cfg6 "s_output" resp6 5 0 0 = WaitResult.maxFailuresExceeded
    ∧ 200 ≤ 201 ∧ 201 < 300 := by
  exact ⟨rfl, by decide, by decide⟩

/-- C6 (amended). In wait_for_job_completion, every HTTP call that raises or
returns a status code other than exactly 200 increments the
consecutive-failure counter, and when the incremented counter reaches the
configured maximum the loop returns the max-failures-exceeded failure at
once, polling no further; a call that returns exactly 200 with a
non-terminal status resets the counter to zero for the next iteration. -/
theorem C6_failure_counter :
    ∀ (cfg : WaitConfig) (t : String) (resp : Nat → HttpPollResult) (fuel k f : Nat),
      (resp k = HttpPollResult.exn →
        wait_loop cfg t resp (fuel + 1) k f =
          if cfg.http_max_retries ≤ f + 1 then WaitResult.maxFailuresExceeded
          else wait_loop cfg t resp fuel (k + 1) (f + 1))
      ∧ (∀ (c : Nat) (d : JobDetails), resp k = HttpPollResult.ok c d → c ≠ 200 →
        wait_loop cfg t resp (fuel + 1) k f =
          if cfg.http_max_retries ≤ f + 1 then WaitResult.maxFailuresExceeded
          else wait_loop cfg t resp fuel (k + 1) (f + 1))
      ∧ (∀ d : JobDetails, resp k = HttpPollResult.ok 200 d →
          d.status ≠ some "finished" → d.status ≠ some "error" → d.status ≠ some "failed" →
        wait_loop cfg t resp (fuel + 1) k f = wait_loop cfg t resp fuel (k + 1) 0) := by
  intro cfg t resp fuel k f
  refine ⟨?_, ?_, ?_⟩
  · intro h
    simp [wait_loop, h]
  · intro c d h hc
    simp [wait_loop, h, hc]
  · intro d h h1 h2 h3
    have b1 : (d.status == some "finished") = false := beq_eq_false_iff_ne.mpr h1
    have b2 : (d.status == some "error") = false := beq_eq_false_iff_ne.mpr h2
    have b3 : (d.status == some "failed") = false := beq_eq_false_iff_ne.mpr h3
    simp [wait_loop, h, b1, b2, b3]

/-- C6 witness: the first conjunct of the counter law applied to an engine
whose first call raises, under a budget of 3 consecutive failures. -/
theorem C6_failure_counter_witness :
    wait_loop { http_poll_interval := 1, http_max_retries := 3 } "s_output"
        (fun _ => HttpPollResult.exn) (1 + 1) 0 0 =
      if (3 : Nat) ≤ 0 + 1 then WaitResult.maxFailuresExceeded
      else wait_loop { http_poll_interval := 1, http_max_retries := 3 } "s_output"
        (fun _ => HttpPollResult.exn) 1 (0 + 1) (0 + 1) :=
  (C6_failure_counter { http_poll_interval := 1, http_max_retries := 3 } "s_output"
    (fun _ => HttpPollResult.exn) 1 0 0).1 rfl

/-- C7. A job polled as HTTP 200 `running` for `n` polls and then HTTP 200
`finished` with a result graph in which the extraction scan finds the
awaited variable makes wait_for_job_completion return that variable's data
field (the Python return value is exactly that data); and the extraction
scan is the first-match traversal over nodes, then each node's properties,
then each property's variable list, in order. -/
theorem C7_finished_with_variable :
    ∀ (cfg : WaitConfig) (t : String) (resp : Nat → HttpPollResult)
      (ds : Nat → JobDetails) (n fuel : Nat) (fd : JobDetails) (v : Option String),
      (∀ i, i < n → resp i = .ok 200 (ds i)) →
      (∀ i, i < n → (ds i).status = some "running") →
      resp n = .ok 200 fd →
      fd.status = some "finished" →
      extract_variable fd.nodes t = some v →
      n < fuel →
      (wait_for_job_completion cfg t resp fuel = WaitResult.extracted v
        ∧ wait_return_value (wait_for_job_completion cfg t resp fuel) = v)
      ∧ (∀ (nodes : List WfNode) (t2 : String),
          extract_variable nodes t2 =
            ((nodes.flatMap fun nd => nd.properties.«variables»).find?
                (fun w => w.name == some t2)).map (fun w => w.data)) := by
  intro cfg t resp ds n fuel fd v h1 h2 h3 h4 h5 h6
  have hmain : wait_for_job_completion cfg t resp fuel = WaitResult.extracted v := by
    unfold wait_for_job_completion
    exact wait_loop_reaches cfg t resp n ds 0 fuel 0 fd v
      (by intro i hi; simpa using h1 i hi)
      h2 (by simpa using h3) h4 h5 h6
  exact ⟨⟨hmain, by rw [hmain]; rfl⟩, fun nodes t2 => extract_variable_eq_find nodes t2⟩

/-- C7 witness: the status sequence running, running, finished with
`s_output = /out/a.mxf` present yields the extracted value `/out/a.mxf`. -/
theorem C7_finished_with_variable_witness :
    wait_for_job_completion cfg_default "s_output" resp7 3 =
      WaitResult.extracted (some "/out/a.mxf") :=
  ((C7_finished_with_variable cfg_default "s_output" resp7 ds7 2 3 fd_ok
      (some "/out/a.mxf")
      (by intro i hi; interval_cases i <;> rfl)
      (by intro i hi; rfl)
      rfl rfl rfl (by decide)).1).1

/-- C1 (counterexample to the claim as stated). In the two-item run whose
first item's submission response lacks `job_id`, the aggregated result set
of monitor_jobs holds a single outcome although two input items were given:
the first item is dropped from the aggregate (it is only logged), so the
result set does not contain one outcome per input item. -/
theorem C1_counterexample_dropped_item :
    (monitor_jobs resp2 60 (launch_jobs sub2 files2)).length = 1
    ∧ files2.length = 2 := by
  exact ⟨rfl, rfl⟩

/-- C1 (amended). The aggregate of monitor_jobs holds exactly one outcome
per successfully launched job (assuming the engine issued pairwise-distinct
job ids, which key the results dict), and the launched jobs are at most the
input items: items that fail at submission are absent from the aggregate. -/
theorem C1_one_outcome_per_launched_job :
    ∀ (subResp : Nat → SubmitResult) (respOf : String → Nat → PollHttp)
      (poll_frequency : Nat) (input_files : List String),
      ((launch_jobs subResp input_files).map Prod.fst).Nodup →
      (monitor_jobs respOf poll_frequency (launch_jobs subResp input_files)).length =
          (launch_jobs subResp input_files).length
      ∧ (launch_jobs subResp input_files).length ≤ input_files.length := by
  intro subResp respOf poll_frequency input_files hnd
  constructor
  · unfold monitor_jobs
    rw [monitor_go_length respOf _ [] hnd (by intro jid _; rfl)]
    simp
  · exact launch_go_length_le subResp 0 input_files

/-- C1 witness: in the two-item example run, the single launched job yields
exactly one outcome, and one launched job is at most two input items. -/
theorem C1_one_outcome_per_launched_job_witness :
    (monitor_jobs resp2 60 (launch_jobs sub2 files2)).length =
        (launch_jobs sub2 files2).length
    ∧ (launch_jobs sub2 files2).length ≤ files2.length :=
  C1_one_outcome_per_launched_job sub2 resp2 60 files2 (by decide)

/-- C2 (counterexample to the claim as stated). In the two-item run whose
first item fails at submission (no `job_id` in the 200 response) while the
second launches and completes with state 1, the process exits 0 even though
the first input item never reached `succeeded` — indeed no outcome for
`a.mov` exists at all in the aggregate the verdict is computed from. -/
theorem C2_counterexample_exit_zero_despite_failure :
    launch_job_main sub2 resp2 60 files2 = 0
    ∧ ((monitor_jobs resp2 60 (launch_jobs sub2 files2)).all
        (fun p => p.2.input_file != "a.mov")) = true := by
  exact ⟨rfl, rfl⟩

/-- C2 (amended). The exit code of launch_job.py main is 0 exactly when the
input list is non-empty, at least one job was successfully launched, and
every outcome in the aggregate — which covers only the successfully
launched jobs — has status `success`; items dropped at submission do not
influence the verdict. -/
theorem C2_exit_code_iff :
    ∀ (subResp : Nat → SubmitResult) (respOf : String → Nat → PollHttp)
      (poll_frequency : Nat) (input_files : List String),
      launch_job_main subResp respOf poll_frequency input_files = 0 ↔
        (input_files.isEmpty = false
          ∧ (launch_jobs subResp input_files).isEmpty = false
          ∧ ((monitor_jobs respOf poll_frequency (launch_jobs subResp input_files)).all
              (fun p => p.2.status == "success")) = true) := by
  intro subResp respOf poll_frequency input_files
  unfold launch_job_main
  cases h1 : input_files.isEmpty with
  | true => simp [h1]
  | false =>
      cases h2 : (launch_jobs subResp input_files).isEmpty with
      | true => simp [h2]
      | false =>
          cases h3 : (monitor_jobs respOf poll_frequency (launch_jobs subResp input_files)).all
              (fun p => p.2.status == "success") with
          | true => simp [h2, h3]
          | false => simp [h2, h3]

/-- C2 witness: the amended characterization evaluated on the two-item
example run, whose three conditions hold concretely. -/
theorem C2_exit_code_iff_witness :
    launch_job_main sub2 resp2 60 files2 = 0 :=
  (C2_exit_code_iff sub2 resp2 60 files2).mpr ⟨rfl, rfl, rfl⟩

/-- C5 (counterexample to the claim as stated). For a one-item run whose
submission POST returns 200 without a `job_id`, no outcome of any kind —
in particular none with a `submission_failed` status, which exists nowhere
in the source — is recorded: the launched list and the aggregate are both
empty; and in the jobcontroller path the same engine answer does lead to
polling (process_file calls wait_for_job_completion with job_id None). -/
theorem C5_counterexample_no_outcome_recorded :
    launch_jobs sub5 ["a.mov"] = []
    ∧ monitor_jobs resp2 60 (launch_jobs sub5 ["a.mov"]) = []
    ∧ process_file_polls (SubmitOutcome.ok none) = true := by
  exact ⟨rfl, rfl, rfl⟩

/-- C5 (amended). In launch_job.py, the launched list keeps exactly the
items whose POST parsed to a body carrying a job id — an item whose POST
fails or returns no id is dropped (never polled, no outcome, no exception
escaping launch_jobs); in jobcontroller.py, a failing POST raises a
RuntimeError that the item boundary of process_file converts to an `error`
outcome, while a 200 response without a job id yields job_id None and is
polled anyway. -/
theorem C5_submission_failure_handling :
    ∀ (subResp : Nat → SubmitResult) (input_files : List String)
      (t : String) (w : WaitResult),
      launch_jobs subResp input_files =
        input_files.enum.filterMap (fun p =>
          match subResp p.1 with
          | SubmitResult.ok (some jid) => some (jid, p.2)
          | _ => none)
      ∧ process_file (SubmitOutcome.httpError t) w =
          { status := "error", error := some ("Failed to submit job: " ++ t) }
      ∧ process_file_polls (SubmitOutcome.httpError t) = false
      ∧ process_file_polls (SubmitOutcome.ok none) = true := by
  intro subResp input_files t w
  refine ⟨?_, rfl, rfl, rfl⟩
  unfold launch_jobs List.enum
  exact launch_go_filterMap subResp 0 input_files

/-- C8. When a reference job id is supplied: if the tickets lookup finds it
among currently-running jobs, the submitted variable list is the fetched
variables followed by every caller-supplied pair in order, with no
deduplication; if it is not found (or the tickets call failed), the result
is exactly the caller-supplied pairs — enrichment is a silent no-op, not an
error. -/
theorem C8_variable_enrichment :
    ∀ (variables_list : List (String × String)) (jid : String)
      (tickets : Option (List RunningJob)) (vs : List Variable),
      (fetch_variables_from_job tickets jid = some vs →
        prepare_variables variables_list (some jid) tickets =
          vs ++ variables_list.map caller_variable)
      ∧ (fetch_variables_from_job tickets jid = none →
        prepare_variables variables_list (some jid) tickets =
          variables_list.map caller_variable) := by
  intro variables_list jid tickets vs
  constructor
  · intro h
    cases vs with
    | nil => simp [prepare_variables, h]
    | cons v rest => simp [prepare_variables, h]
  · intro h
    simp [prepare_variables, h]

/-- C8 witness: with the reference job `J` running and holding one variable,
the prepared list is that variable followed by the caller pair; the
not-found branch applied to an empty tickets list yields the caller pair
alone. -/
theorem C8_variable_enrichment_witness :
    prepare_variables [("s_clip", "c1")] (some "J") tickets8 =
        [var8] ++ [("s_clip", "c1")].map caller_variable
    ∧ prepare_variables [("s_clip", "c1")] (some "J") (some []) =
        [("s_clip", "c1")].map caller_variable :=
  ⟨(C8_variable_enrichment [("s_clip", "c1")] "J" tickets8 [var8]).1 rfl,
    (C8_variable_enrichment [("s_clip", "c1")] "J" (some []) []).2 rfl⟩

/-- C9. The poll-frequency configuration is not an effective override: the
results of monitor_jobs are identical for any two values of its
poll_frequency parameter (the parameter is never read), and every sleep the
poll loop actually executes lasts the hard-coded 60 seconds, whatever the
configured value was. -/
theorem C9_poll_frequency_ignored :
    (∀ (respOf : String → Nat → PollHttp) (pf pf2 : Nat)
        (launched : List (String × String)),
      monitor_jobs respOf pf launched = monitor_jobs respOf pf2 launched)
    ∧ (∀ (resp : Nat → PollHttp) (jid : String) (poll_timeout s : Nat),
        s ∈ (poll_job_completion_t resp jid poll_timeout).2 → s = 60) := by
  constructor
  · intro respOf pf pf2 launched
    rfl
  · intro resp jid poll_timeout s hs
    exact poll_go_sleeps resp jid (poll_timeout / 60) 0 s hs

/-- C9 witness: a configured poll frequency of 10 produces the same results
as 60 on the example run, and the sleep executed by a one-attempt poll
against a failing server is 60 seconds. -/
theorem C9_poll_frequency_ignored_witness :
    monitor_jobs resp2 10 [("j1", "a.mov")] = monitor_jobs resp2 60 [("j1", "a.mov")]
    ∧ (60 : Nat) = 60 :=
  ⟨C9_poll_frequency_ignored.1 resp2 10 60 [("j1", "a.mov")],
    C9_poll_frequency_ignored.2 err_resp "j" 60 60 (by decide)⟩

/-- C10. Under the process-pool semantics of jobcontroller.py main —
`ProcessPoolExecutor(max_workers = M)` running one process_file task per
input item, where an item is in flight at the engine only between the
submit POST and the terminal poll result inside its own task — every state
reachable from `n` queued items has at most `M` items in flight
simultaneously. -/
theorem C10_in_flight_bounded :
    ∀ (M n : Nat) (s : List Phase), pool_reachable M n s → in_flight_count s ≤ M := by
  intro M n s h
  have h1 : in_flight_count s ≤ running_count s :=
    List.countP_mono_left (fun a _ => in_flight_imp_running a)
  exact le_trans h1 (pool_running_le M n s h)

/-- C10 witness: with a bound of 2 workers and 3 queued items, the state
reached by starting item 0 and submitting its engine job has at most 2
items in flight. -/
theorem C10_in_flight_bounded_witness :
    in_flight_count (((List.replicate 3 Phase.pending).set 0 (Phase.running false)).set 0
        (Phase.running true)) ≤ 2 :=
  C10_in_flight_bounded 2 3 _
    (Relation.ReflTransGen.tail
      (Relation.ReflTransGen.tail Relation.ReflTransGen.refl
        (PoolStep.start (List.replicate 3 Phase.pending) 0 (by decide) (by decide)))
      (PoolStep.submit ((List.replicate 3 Phase.pending).set 0 (Phase.running false)) 0
        (by decide)))
